import Mathlib

/-!
# Page interaction controller (`src/script.js`)

A shallow embedding of the handlers installed by the `DOMContentLoaded`
listener of `src/script.js`, followed by theorems about them.

Modelling conventions.

* The DOM is represented by the fields the handlers read and write: the
  document language attribute, the stored `preferredLanguage` entry, the
  language buttons, the elements tagged `data-i18n` / `data-i18n-placeholder`,
  the FAQ items, the submit buttons and the toast container.
* What the browser supplies and the source only calls is a parameter
  (`Browser`): the HTML parser behind the `innerHTML` setter, and the
  properties a plain object inherits from its prototype chain. The children
  of an element are a value of a type `Dom`; assigning a string to `innerHTML`
  makes them the parse of that string in the context of the element, which
  in general is not the string. The context element is named by its tag.
* A translation table has the shape given for the translation resource,
  a mapping from language code to a mapping from text key to string.
* Tagged elements are assumed not to be nested in one another, so that
  assigning `innerHTML` of one does not replace another.
* A JavaScript value that may be `undefined` is an `Option`, `none` standing
  for `undefined` (or `null` for `localStorage.getItem`).
* Each form contains a submit button and each FAQ item a question button, as
  the handlers dereference them without a check.
* A handler that can throw returns an `Except`, or records the error next to
  the effects that preceded it.
-/

namespace Catarsis

/-! ## The browser -/

/-- Errors thrown by the handlers. -/
inductive JsError where
  | typeError
  | referenceError
  | syntaxError
  | networkError
  deriving DecidableEq, Repr

/-- What the browser supplies to the handlers. -/
structure Browser (Dom : Type) where
  /-- the children the `innerHTML` setter of an element with the given tag builds
  from a string: `parseHTML tag markup` -/
  parseHTML : String → String → Dom
  /-- the read `d[key]` on a dictionary `d` of the table that has no own property
  `key`, the lookup continuing on `Object.prototype`: `some s` when it finds a
  truthy value, `s` being the string that value converts to; `none` when the
  result is `undefined` or falsy (the members of `Object.prototype` are
  functions and the `__proto__` accessor, and reading one does not throw) -/
  inheritedKey : String → Option String
  /-- the expression `translations[lang] && translations[lang][key]` when the table
  has no own property `lang`, the first lookup continuing on
  `Object.prototype`: `.ok (some s)` when the expression is truthy, `s` being
  the string its value converts to; `.ok none` when it is `undefined` or falsy;
  `.error e` when reading `key` on the inherited value throws (as the `caller`
  accessor of a built-in function does) -/
  inheritedLang : String → String → Except JsError (Option String)

/-- Children of an element, named by the tag of the element and the markup the
HTML parser built them from. -/
structure Fragment where
  tag : String
  markup : String
  deriving DecidableEq, Repr

/-- State reached by a handler, with the error that ended it, if any. -/
structure Outcome (σ : Type) where
  page : σ
  error : Option JsError
  deriving DecidableEq, Repr

/-! ## Translation logic (lines 2-52) -/

/-- Localized strings of one language: text key to string. -/
abbrev Dict := List (String × String)

/-- Translation table: language code to dictionary (the variable `translations`). -/
abbrev Table := List (String × Dict)

/-- Own property `k` of an object given by the list of its own properties, `none`
when it has no such own property. -/
def ownProp {α : Type} (o : List (String × α)) (k : String) : Option α :=
  match o with
  | [] => none
  | (k', v) :: rest => if k' = k then some v else ownProp rest k

/-- Conversion of a possibly `undefined` string to a string, as done by property
keys, attribute setters and `localStorage.setItem`. -/
def jsString : Option String → String
  | none => "undefined"
  | some s => s

/-- The guard `translations[lang] && translations[lang][key]` (lines 31 and 39):
`.ok (some s)` when it is truthy, `s` being the string then assigned;
`.ok none` when it is falsy; `.error e` when reading it throws. An own
dictionary is truthy; an own entry is truthy when it is a non-empty string;
a property that is not an own one is looked up on the prototype chain. -/
def translation {Dom : Type} (env : Browser Dom) (t : Table) (lang : Option String)
    (key : String) : Except JsError (Option String) :=
  match ownProp t (jsString lang) with
  | some d =>
    match ownProp d key with
    | some v => .ok (if v = "" then none else some v)
    | none => .ok (env.inheritedKey key)
  | none => env.inheritedLang (jsString lang) key

/-- A `.lang-btn` element: its `data-lang` attribute and whether its class list
contains `active`. -/
structure LangBtn where
  dataLang : Option String
  active : Bool
  deriving DecidableEq, Repr

/-- An element with a `data-i18n` attribute: its tag, the key and its children. -/
structure TextEl (Dom : Type) where
  tag : String
  key : String
  children : Dom
  deriving DecidableEq, Repr

/-- An element with a `data-i18n-placeholder` attribute: the key and its
`placeholder`. -/
structure InputEl where
  key : String
  placeholder : String
  deriving DecidableEq, Repr

/-- The part of the page the translation logic touches. -/
structure LangPage (Dom : Type) where
  /-- the closure variable `translations` -/
  translations : Table
  /-- the attribute `document.documentElement.lang` -/
  docLang : String
  /-- the entry `localStorage.preferredLanguage`, `none` when not stored -/
  preferredLanguage : Option String
  /-- the node list `langBtns` -/
  langBtns : List LangBtn
  /-- the elements matching `[data-i18n]` -/
  textEls : List (TextEl Dom)
  /-- the elements matching `[data-i18n-placeholder]` -/
  inputEls : List InputEl
  deriving DecidableEq, Repr

/-- A loop `forEach` whose body `f` updates one element or throws: the elements
before a throwing one are updated, the throwing one and those after it are
left as they were. -/
def forEachEl {α : Type} (f : α → Except JsError α) : List α → List α × Option JsError
  | [] => ([], none)
  | x :: rest =>
    match f x with
    | .error e => (x :: rest, some e)
    | .ok y => (y :: (forEachEl f rest).1, (forEachEl f rest).2)

/-- Body of the first `forEach` of `setLanguage`:
`btn.classList.toggle("active", btn.dataset.lang === lang)`. -/
def toggleActive (lang : Option String) (btn : LangBtn) : LangBtn :=
  { btn with active := decide (btn.dataLang = lang) }

/-- Body of the second `forEach` of `setLanguage` (lines 29-34): under the guard,
`el.innerHTML = translations[lang][key]`. -/
def translateText {Dom : Type} (env : Browser Dom) (t : Table) (lang : Option String)
    (el : TextEl Dom) : Except JsError (TextEl Dom) :=
  match translation env t lang el.key with
  | .error e => .error e
  | .ok (some v) => .ok { el with children := env.parseHTML el.tag v }
  | .ok none => .ok el

/-- Body of the third `forEach` of `setLanguage` (lines 37-42): under the guard,
`el.placeholder = translations[lang][key]`. -/
def translateInput {Dom : Type} (env : Browser Dom) (t : Table) (lang : Option String)
    (el : InputEl) : Except JsError InputEl :=
  match translation env t lang el.key with
  | .error e => .error e
  | .ok (some v) => .ok { el with placeholder := v }
  | .ok none => .ok el

/-- The function `setLanguage(lang)` (lines 19-43). The argument is `none` when the
caller passes `undefined` (a button without `data-lang`). The third loop runs
only if the second did not throw. -/
def setLanguage {Dom : Type} (env : Browser Dom) (lang : Option String) (p : LangPage Dom) :
    Outcome (LangPage Dom) :=
  let texts := forEachEl (translateText env p.translations lang) p.textEls
  let inputs : List InputEl × Option JsError :=
    match texts.2 with
    | some e => (p.inputEls, some e)
    | none => forEachEl (translateInput env p.translations lang) p.inputEls
  { page :=
      { translations := p.translations
        docLang := jsString lang
        preferredLanguage := some (jsString lang)
        langBtns := p.langBtns.map (toggleActive lang)
        textEls := texts.1
        inputEls := inputs.1 }
    error := inputs.2 }

/-- Click handler of the language button at position `i` (lines 45-49):
`setLanguage(btn.dataset.lang)`. There is no handler for a position without
a button. -/
def langBtnClick {Dom : Type} (env : Browser Dom) (i : Nat) (p : LangPage Dom) :
    Outcome (LangPage Dom) :=
  match p.langBtns[i]? with
  | none => { page := p, error := none }
  | some btn => setLanguage env btn.dataLang p

/-- Outcome of a `fetch` whose response body is read with `response.json()`.
`body = none` is a body that is not parsable JSON. -/
inductive Fetched (β : Type) where
  | rejected
  | resolved (ok : Bool) (body : Option β)
  deriving DecidableEq, Repr

/-- The expression `localStorage.getItem("preferredLanguage") || "es"`. -/
def savedLang {Dom : Type} (p : LangPage Dom) : String :=
  match p.preferredLanguage with
  | none => "es"
  | some s => if s = "" then "es" else s

/-- The function `loadTranslations()` (lines 6-17) run against the outcome of
`fetch("translations.json")`. A rejected fetch, a rejected `response.json()`
and a throw inside `setLanguage` land in the `catch` block, which only logs
and undoes nothing. The status of the response is not consulted. -/
def loadTranslations {Dom : Type} (env : Browser Dom) (r : Fetched Table) (p : LangPage Dom) :
    LangPage Dom :=
  match r with
  | .rejected => p
  | .resolved _ none => p
  | .resolved _ (some t) =>
    (setLanguage env (some (savedLang p)) { p with translations := t }).page

/-- Events of a browsing session that reach the translation logic: the
translation fetch settling, and a click on the language button at a position. -/
inductive LangEvent where
  | loaded (r : Fetched Table)
  | click (i : Nat)
  deriving DecidableEq, Repr

/-- A page together with a record of whether `setLanguage` has run yet, that is,
whether the preference has been written by this script. -/
structure Session (Dom : Type) where
  page : LangPage Dom
  langSet : Bool
  deriving DecidableEq, Repr

/-- State at `DOMContentLoaded`: `translations` is the empty object (line 3), nothing
written yet. -/
def Session.start {Dom : Type} (p : LangPage Dom) : Session Dom :=
  { page := { p with translations := [] }, langSet := false }

/-- One event of the session. `langSet` is raised exactly when the handler
reaches a call of `setLanguage`. -/
def Session.step {Dom : Type} (env : Browser Dom) (s : Session Dom) : LangEvent → Session Dom
  | .loaded r =>
    { page := loadTranslations env r s.page
      langSet := s.langSet || (match r with
        | .resolved _ (some _) => true
        | _ => false) }
  | .click i =>
    { page := (langBtnClick env i s.page).page
      langSet := s.langSet || (s.page.langBtns[i]?).isSome }

/-- A run of events from a state. -/
def Session.run {Dom : Type} (env : Browser Dom) (s : Session Dom) (evs : List LangEvent) :
    Session Dom :=
  evs.foldl (Session.step env) s

/-- The codes `setLanguage` can be called with during a session started on `p`:
the stored preference if it is a non-empty string, the default, and the
`data-lang` values of the buttons. -/
def candidateLangs {Dom : Type} (p : LangPage Dom) : List String :=
  (match p.preferredLanguage with
    | none => []
    | some s => if s = "" then [] else [s])
  ++ "es" :: p.langBtns.map (fun b => jsString b.dataLang)

/-! ## Navbar scroll effect (lines 67-88) -/

/-- State of the scroll effect. -/
structure ScrollState where
  /-- the value `window.scrollY`, in pixels -/
  scrollY : Int
  /-- the closure variable `ticking` -/
  ticking : Bool
  /-- number of callbacks handed to `requestAnimationFrame` and not yet run -/
  pending : Nat
  /-- whether `.navbar` carries the class `scrolled`; `none` when the page has no
  `.navbar` element -/
  navbar : Option Bool
  /-- number of times a frame callback has recomputed the class so far -/
  recomputed : Nat
  deriving DecidableEq, Repr

/-- State at `DOMContentLoaded`: `ticking = false` (line 70), nothing requested. -/
def ScrollState.start (y : Int) (navbar : Option Bool) : ScrollState :=
  { scrollY := y, ticking := false, pending := 0, navbar := navbar, recomputed := 0 }

/-- The scroll listener (lines 74-86), run after the window has scrolled to `y`. -/
def onScroll (y : Int) (s : ScrollState) : ScrollState :=
  let s := { s with scrollY := y }
  if !s.ticking then { s with pending := s.pending + 1, ticking := true } else s

/-- The callback handed to `requestAnimationFrame` (lines 76-83). Without a
`.navbar` element `navbar.classList` throws and `ticking` is not reset. -/
def frameCallback (s : ScrollState) : ScrollState :=
  match s.navbar with
  | none => s
  | some _ =>
    { s with navbar := some (decide (s.scrollY > 50)), recomputed := s.recomputed + 1,
             ticking := false }

/-- An animation frame: every pending callback is run once and the queue is emptied. -/
def onFrame (s : ScrollState) : ScrollState :=
  { (Nat.iterate frameCallback s.pending s) with pending := 0 }

/-- Steps of the scroll machine. -/
inductive ScrollEvent where
  | scroll (y : Int)
  | frame
  deriving DecidableEq, Repr

/-- One step of the scroll machine. -/
def ScrollState.step (s : ScrollState) : ScrollEvent → ScrollState
  | .scroll y => onScroll y s
  | .frame => onFrame s

/-- A run of steps from a state. -/
def ScrollState.run (s : ScrollState) (evs : List ScrollEvent) : ScrollState :=
  evs.foldl ScrollState.step s

/-- A burst of scroll events, one per position in `ys`. -/
def scrollBurst (ys : List Int) : List ScrollEvent :=
  ys.map ScrollEvent.scroll

/-- The pending-flag invariant: a navbar exists, and either nothing is pending and
`ticking` is false, or one callback is pending and `ticking` is true. -/
def ScrollInv (s : ScrollState) : Prop :=
  s.navbar.isSome = true ∧
    ((s.ticking = false ∧ s.pending = 0) ∨ (s.ticking = true ∧ s.pending = 1))

/-! ## FAQ accordion (lines 363-382) -/

/-- A `.faq-item`: whether its class list contains `active`, and the
`aria-expanded` attribute of its `.faq-question` button (`none` when the
attribute is not present). -/
structure FaqItem where
  active : Bool
  ariaExpanded : Option String
  deriving DecidableEq, Repr

/-- Body of the inner `forEach` (lines 371-374). -/
def closeItem (_ : FaqItem) : FaqItem :=
  { active := false, ariaExpanded := some "false" }

/-- Click handler of the question of item `j` (lines 367-381). There is no handler
for a position without an item. -/
def faqClick (j : Nat) (items : List FaqItem) : List FaqItem :=
  match items[j]? with
  | none => items
  | some item =>
    let isOpen := item.active
    let closed := items.map closeItem
    if !isOpen then closed.set j { active := true, ariaExpanded := some "true" } else closed

/-- Number of open items. -/
def openCount (items : List FaqItem) : Nat :=
  items.countP (fun i => i.active)

/-! ## Form submission with toast feedback (lines 384-508) -/

/-- JSON values, as produced by `response.json()`. Numbers are the integers that
JavaScript prints in plain decimal. An object lists its own properties. -/
inductive Json where
  | null
  | bool (b : Bool)
  | num (n : Int)
  | str (s : String)
  | arr (xs : List Json)
  | obj (kvs : List (String × Json))
  deriving Repr

/-- Truthiness of a JavaScript value (`none` is `undefined`). -/
def truthy : Option Json → Bool
  | none => false
  | some .null => false
  | some (.bool b) => b
  | some (.num n) => decide (n ≠ 0)
  | some (.str s) => decide (s ≠ "")
  | some (.arr _) => true
  | some (.obj _) => true

/-- The operator `a || b`. -/
def jsOr (a b : Option Json) : Option Json :=
  if truthy a then a else b

mutual
/-- String conversion of a JSON value, as performed by a template literal. -/
def Json.render : Json → String
  | .null => "null"
  | .bool b => if b then "true" else "false"
  | .num n => toString n
  | .str s => s
  | .arr xs => Json.join xs
  | .obj _ => "[object Object]"
/-- The method `Array.prototype.join` with the default separator; `null` elements
are rendered empty. -/
def Json.join : List Json → String
  | [] => ""
  | [.null] => ""
  | [x] => Json.render x
  | .null :: xs => "," ++ Json.join xs
  | x :: xs => Json.render x ++ "," ++ Json.join xs
end

/-- String conversion of a JavaScript value in a template literal. -/
def render : Option Json → String
  | none => "undefined"
  | some j => j.render

/-- Property read `json.name` for the names `error` and `message`, which no
prototype defines: a `TypeError` on `null`, the own property on an object,
`undefined` on any other JSON value. -/
def Json.get (j : Json) (name : String) : Except JsError (Option Json) :=
  match j with
  | .null => .error .typeError
  | .obj kvs => .ok (ownProp kvs name)
  | _ => .ok none

/-- The two forms. -/
inductive Form where
  | contact
  | newsletter
  deriving DecidableEq, Repr

/-- The submit button of a form. -/
structure SubmitBtn where
  disabled : Bool
  textContent : String
  deriving DecidableEq, Repr

/-- A form control: current value and the default value `reset()` restores. -/
structure Field where
  value : String
  defaultValue : String
  deriving DecidableEq, Repr

/-- The part of the page a submit handler touches. -/
structure FormPage (Dom : Type) where
  /-- the attribute `document.documentElement.lang` -/
  docLang : String
  /-- the element `button[type="submit"]` of the form -/
  submitBtn : SubmitBtn
  /-- the controls of the form -/
  fields : List Field
  /-- the value of the element with id `name` as read by the success branch, `none`
  when there is no such element; it is tracked apart from `fields` -/
  nameValue : Option String
  /-- children of the toasts appended to the toast container, oldest first -/
  toasts : List Dom
  deriving DecidableEq, Repr

/-- The template literal assigned to `toast.innerHTML` (lines 398-401), the message
interpolated as it is. -/
def toastMarkup (message : String) : String :=
  "\n            <div class=\"toast-icon\">✓</div>\n            <div class=\"toast-message\">"
    ++ message ++ "</div>\n        "

/-- The function `showToast(message)` (lines 395-412): a `div` whose children are
parsed from the template is appended to the container. The timers that
later fade and remove it are not modelled. -/
def showToast {Dom : Type} (env : Browser Dom) (message : String) (p : FormPage Dom) :
    FormPage Dom :=
  { p with toasts := p.toasts ++ [env.parseHTML "div" (toastMarkup message)] }

/-- The method `form.reset()`. -/
def resetForm {Dom : Type} (p : FormPage Dom) : FormPage Dom :=
  { p with fields := p.fields.map (fun f => { f with value := f.defaultValue }) }

/-- Label shown while the request is in flight (lines 422-423 and 471-474). -/
def busyLabel (f : Form) (docLang : String) : String :=
  match f with
  | .contact => if docLang = "en" then "Sending..." else "Enviando..."
  | .newsletter => if docLang = "en" then "Subscribing..." else "Suscribiendo..."

/-- Success message (lines 435-438 and 485-488). -/
def successMsg (f : Form) (docLang : String) (name : String) : String :=
  match f with
  | .contact =>
    if docLang = "en" then
      "Thank you " ++ name ++ "! Your story inspires us. We will be in touch soon."
    else
      "¡Gracias " ++ name ++ "! Tu historia nos inspira pronto nos podremos en contacto."
  | .newsletter =>
    if docLang = "en" then "Thank you for subscribing to our blog!"
    else "¡Gracias por suscribirte a nuestro blog!"

/-- Synchronous part of the submit handler (lines 416-423 and 465-474): returns
the captured `originalText` and the page with the button disabled and
relabelled. -/
def submitStart {Dom : Type} (f : Form) (p : FormPage Dom) : String × FormPage Dom :=
  let originalText := p.submitBtn.textContent
  (originalText,
    { p with submitBtn := { disabled := true, textContent := busyLabel f p.docLang } })

/-- The first `.then` callback (lines 432-445 and 483-495), given the response.
Every throw happens before the callback has changed the page. -/
def onResponse {Dom : Type} (env : Browser Dom) (f : Form) (ok : Bool) (body : Option Json)
    (p : FormPage Dom) : Except JsError (FormPage Dom) :=
  if ok then
    match f with
    | .contact =>
      match p.nameValue with
      | none => .error .typeError
      | some name => .ok (resetForm (showToast env (successMsg f p.docLang name) p))
    | .newsletter => .ok (resetForm (showToast env (successMsg f p.docLang "") p))
  else
    match body with
    | none => .error .syntaxError
    | some json => do
      let e ← json.get "error"
      let m ← json.get "message"
      pure (showToast env (render (jsOr e (jsOr m (some (.str "Error"))))) p)

/-- The `.catch` callback (lines 446-453 and 496-502). -/
def onCatch {Dom : Type} (env : Browser Dom) (p : FormPage Dom) : FormPage Dom :=
  showToast env (if p.docLang = "en" then "Something went wrong!" else "¡Algo salió mal!") p

/-- The final `.then` callback (lines 454-457 and 503-506). -/
def onFinally {Dom : Type} (originalText : String) (p : FormPage Dom) : FormPage Dom :=
  { p with submitBtn := { disabled := false, textContent := originalText } }

/-- The promise chain `fetch(...).then(...).catch(...).then(...)` run on the page
`p` as it is when the fetch settles with outcome `r`. -/
def settle {Dom : Type} (env : Browser Dom) (f : Form) (originalText : String)
    (r : Fetched Json) (p : FormPage Dom) : FormPage Dom :=
  let afterThen : Except JsError (FormPage Dom) :=
    match r with
    | .rejected => .error .networkError
    | .resolved ok body => onResponse env f ok body p
  let afterCatch : FormPage Dom :=
    match afterThen with
    | .ok q => q
    | .error _ => onCatch env p
  onFinally originalText afterCatch

/-- A whole submission: the handler runs on `p`, the request settles with `r`
while the page is otherwise untouched, and the chain runs to its end. -/
def submit {Dom : Type} (env : Browser Dom) (f : Form) (r : Fetched Json) (p : FormPage Dom) :
    FormPage Dom :=
  let (originalText, q) := submitStart f p
  settle env f originalText r q

/-! ## Animation registrations (lines 90-300 and 510-569) -/

/-- The globals supplied by the animation library, each present or not. -/
structure Globals where
  gsap : Bool
  scrollTrigger : Bool
  deriving DecidableEq, Repr

/-- The elements the registrations select. -/
structure AnimPage where
  /-- the value `window.innerWidth` -/
  innerWidth : Nat
  /-- number of `.paint-hero-left` elements -/
  heroLeft : Nat
  /-- number of `.paint-hero-right` elements -/
  heroRight : Nat
  /-- number of `.paint-hero-yellow` elements -/
  heroYellow : Nat
  /-- number of `.paint-splatter` elements -/
  splatters : Nat
  /-- number of `.step-trigger` elements -/
  steps : Nat
  /-- the `.feature-card` elements, each with whether it contains an `h3` -/
  featureCards : List Bool
  /-- number of `.team-card` elements -/
  teamCards : Nat
  /-- number of `.faq-shape` elements -/
  faqShapes : Nat
  deriving DecidableEq, Repr

/-- A call into the animation library made during page load, by call site and
index of the element it is made for. -/
inductive Reg where
  | registerPlugin
  | heroLeft (i : Nat)
  | heroRight (i : Nat)
  | heroYellow (i : Nat)
  | mobileSplatter
  | floating (i : Nat)
  | heroTimeline
  | stepTrigger (i : Nat)
  | stepText (i : Nat)
  | featuresEntrance
  | cardHover (i : Nat)
  | teamCard (i : Nat)
  | teamDetails (i : Nat)
  | shapeParallax (i : Nat)
  | shapeFloat (i : Nat)
  deriving DecidableEq, Repr

/-- Result of running initialisation code: the calls made, in order, and the
error that ended it, if any. -/
structure InitResult where
  regs : List Reg
  error : Option JsError
  deriving DecidableEq, Repr

/-- Initialisation code that does nothing. -/
def InitResult.skip : InitResult :=
  { regs := [], error := none }

/-- Sequencing of two statements: the second runs only if the first did not throw. -/
def InitResult.seq (a b : InitResult) : InitResult :=
  match a.error with
  | some _ => a
  | none => { regs := a.regs ++ b.regs, error := b.error }

/-- A loop `forEach` over `n` elements, `body i` being the statement run for the
element at index `i`. -/
def forEachIndex (n : Nat) (body : Nat → InitResult) : InitResult :=
  (List.range n).foldr (fun i rest => (body i).seq rest) InitResult.skip

/-- A statement that evaluates the identifier `gsap` and makes the call `r` on it:
a `ReferenceError` when the global is not defined. -/
def gsapCall (g : Globals) (r : Reg) : InitResult :=
  if g.gsap then { regs := [r], error := none }
  else { regs := [], error := some .referenceError }

/-- The loop over the feature cards (lines 275-298): `getComputedStyle(title)`
throws when the card has no `h3`; otherwise the hover listeners are bound. -/
def featureCardLoop (g : Globals) : Nat → List Bool → InitResult
  | _, [] => InitResult.skip
  | i, hasTitle :: rest =>
    if hasTitle then (gsapCall g (Reg.cardHover i)).seq (featureCardLoop g (i + 1) rest)
    else { regs := [], error := some .typeError }

/-- The body of the block guarded by `typeof gsap !== "undefined"` (lines 92-299). -/
def gatedBlock (g : Globals) (p : AnimPage) : InitResult :=
  let isMobile := decide (p.innerWidth ≤ 768)
  let registerPlugin : InitResult :=
    if g.scrollTrigger then gsapCall g Reg.registerPlugin
    else { regs := [], error := some .referenceError }
  let paint : InitResult :=
    if !isMobile then
      (forEachIndex p.heroLeft (fun i => gsapCall g (Reg.heroLeft i))).seq
        ((forEachIndex p.heroRight (fun i => gsapCall g (Reg.heroRight i))).seq
          (forEachIndex p.heroYellow (fun i => gsapCall g (Reg.heroYellow i))))
    else gsapCall g Reg.mobileSplatter
  let floating := forEachIndex p.splatters (fun i => gsapCall g (Reg.floating i))
  let steps := forEachIndex p.steps (fun i =>
    (gsapCall g (Reg.stepTrigger i)).seq (gsapCall g (Reg.stepText i)))
  registerPlugin.seq (paint.seq (floating.seq ((gsapCall g Reg.heroTimeline).seq
    (steps.seq ((gsapCall g Reg.featuresEntrance).seq (featureCardLoop g 0 p.featureCards))))))

/-- The loop over `.team-card` (lines 511-539). It stands after the guarded block and
names `gsap` without a guard. -/
def teamCardLoop (g : Globals) (p : AnimPage) : InitResult :=
  forEachIndex p.teamCards (fun i =>
    (gsapCall g (Reg.teamCard i)).seq (gsapCall g (Reg.teamDetails i)))

/-- The loop over `.faq-shape` (lines 542-569), likewise without a guard. -/
def faqShapeLoop (g : Globals) (p : AnimPage) : InitResult :=
  forEachIndex p.faqShapes (fun i =>
    (gsapCall g (Reg.shapeParallax i)).seq (gsapCall g (Reg.shapeFloat i)))

/-- The animation part of the `DOMContentLoaded` listener, in source order: the
guarded block, the team-card loop, the FAQ-shape loop. -/
def initAnimations (g : Globals) (p : AnimPage) : InitResult :=
  (if g.gsap then gatedBlock g p else InitResult.skip).seq
    ((teamCardLoop g p).seq (faqShapeLoop g p))

/-! ## Sample pages used in the concrete evaluations -/

/-- The browser of the concrete evaluations. Children are named by the tag and the
markup they were parsed from. Of the inherited properties it holds the one an
evaluation finds: `translations["constructor"]` is the inherited function
`Object`, whose `name` is the string `Object`. Every other lookup made in an
evaluation (language codes `es`, `en`, `fr`, `constructor`; keys `title`,
`subtitle`, `footer`, `name`, `email`, `phone`) is `undefined` in a browser
and here. -/
def sampleBrowser : Browser Fragment :=
  { parseHTML := Fragment.mk
    inheritedKey := fun _ => none
    inheritedLang := fun lang key =>
      if lang = "constructor" ∧ key = "name" then .ok (some "Object") else .ok none }

/-- A translation table with Spanish and English entries; the English dictionary
has an empty string under `subtitle` and no entry for `footer`. -/
def sampleTable : Table :=
  [("es", [("title", "Hola"), ("subtitle", "Bienvenidos"), ("footer", "Contacto"),
           ("name", "Nombre"), ("email", "Correo")]),
   ("en", [("title", "Hello"), ("subtitle", ""), ("name", "Name"), ("email", "Email")])]

/-- A page in its Spanish default markup, with three language buttons. -/
def samplePage : LangPage Fragment :=
  { translations := sampleTable
    docLang := "es"
    preferredLanguage := none
    langBtns := [⟨some "es", true⟩, ⟨some "en", false⟩, ⟨some "fr", false⟩]
    textEls := [⟨"h1", "title", ⟨"h1", "Hola"⟩⟩,
                ⟨"p", "subtitle", ⟨"p", "Bienvenidos"⟩⟩,
                ⟨"a", "footer", ⟨"a", "Contacto"⟩⟩,
                ⟨"label", "name", ⟨"label", "Nombre"⟩⟩]
    inputEls := [⟨"email", "Correo"⟩, ⟨"phone", "Teléfono"⟩] }

/-- Body of an error response that parses as a table: one Spanish entry. -/
def maintenanceTable : Table :=
  [("es", [("title", "Servicio no disponible")])]

/-- The sample page as it is at `DOMContentLoaded`, before the table is loaded. -/
def freshPage : LangPage Fragment :=
  { samplePage with translations := [] }

/-- An accordion of three items, the first and the third open. -/
def sampleFaq : List FaqItem :=
  [⟨true, some "true"⟩, ⟨false, none⟩, ⟨true, some "true"⟩]

/-- A contact form on a Spanish page, ready to be submitted. -/
def sampleForm : FormPage Fragment :=
  { docLang := "es"
    submitBtn := ⟨false, "Enviar"⟩
    fields := [⟨"Ana", ""⟩, ⟨"ana@example.org", ""⟩]
    nameValue := some "Ana"
    toasts := [] }

/-- The error body with an empty `error` field and a `message` field. -/
def emptyErrorBody : Json :=
  .obj [("error", .str ""), ("message", .str "Bad request")]

/-- The error body of the specification example. -/
def invalidEmailBody : Json :=
  .obj [("error", .str "Invalid email")]

/-- A desktop page with one team card and no other animated element. -/
def teamPage : AnimPage :=
  { innerWidth := 1280, heroLeft := 0, heroRight := 0, heroYellow := 0, splatters := 0,
    steps := 0, featureCards := [], teamCards := 1, faqShapes := 0 }

/-- The animation library is not loaded. -/
def noLibrary : Globals :=
  { gsap := false, scrollTrigger := false }

/-! ## Theorems: translation logic -/

theorem forEachEl_no_throw {α : Type} (f : α → Except JsError α) (l : List α)
    (h : ∀ x ∈ l, ∃ y, f x = .ok y) : (forEachEl f l).2 = none := by
  induction l with
  | nil => rfl
  | cons x rest ih =>
    obtain ⟨y, hy⟩ := h x (List.mem_cons_self x rest)
    simp only [forEachEl, hy]
    exact ih (fun z hz => h z (List.mem_cons_of_mem x hz))

theorem forEachEl_getElem?_ok {α : Type} (f : α → Except JsError α) (l : List α)
    (h : ∀ x ∈ l, ∃ y, f x = .ok y) (i : Nat) (x y : α) (hi : l[i]? = some x)
    (hx : f x = .ok y) : (forEachEl f l).1[i]? = some y := by
  induction l generalizing i with
  | nil => simp at hi
  | cons z rest ih =>
    obtain ⟨w, hw⟩ := h z (List.mem_cons_self z rest)
    cases i with
    | zero =>
      simp only [List.getElem?_cons_zero, Option.some.injEq] at hi
      subst hi
      rw [hx] at hw
      cases hw
      simp [forEachEl, hx]
    | succ i =>
      simp only [List.getElem?_cons_succ] at hi
      simp only [forEachEl, hw, List.getElem?_cons_succ]
      exact ih (fun z hz => h z (List.mem_cons_of_mem _ hz)) i hi

theorem forEachEl_getElem?_fixed {α : Type} (f : α → Except JsError α) (l : List α)
    (i : Nat) (x : α) (hi : l[i]? = some x) (hx : f x = .ok x ∨ ∃ e, f x = .error e) :
    (forEachEl f l).1[i]? = some x := by
  induction l generalizing i with
  | nil => simp at hi
  | cons z rest ih =>
    cases hz : f z with
    | error e => simpa [forEachEl, hz] using hi
    | ok w =>
      cases i with
      | zero =>
        simp only [List.getElem?_cons_zero, Option.some.injEq] at hi
        subst hi
        rcases hx with hx | ⟨e, hx⟩
        · rw [hx] at hz
          cases hz
          simp [forEachEl, hx]
        · rw [hx] at hz
          cases hz
      | succ i =>
        simp only [List.getElem?_cons_succ] at hi
        simp only [forEachEl, hz, List.getElem?_cons_succ]
        exact ih i hi

theorem forEachEl_fixed_all {α : Type} (f : α → Except JsError α) (l : List α)
    (h : ∀ x ∈ l, f x = .ok x) : forEachEl f l = (l, none) := by
  induction l with
  | nil => rfl
  | cons x rest ih =>
    have hx := h x (List.mem_cons_self x rest)
    have hr := ih (fun z hz => h z (List.mem_cons_of_mem x hz))
    simp [forEachEl, hx, hr]

theorem forEachEl_idem {α : Type} (f : α → Except JsError α) (l : List α)
    (h : ∀ x y, f x = .ok y → f y = .ok y) :
    forEachEl f (forEachEl f l).1 = forEachEl f l := by
  induction l with
  | nil => rfl
  | cons x rest ih =>
    cases hx : f x with
    | error e => simp [forEachEl, hx]
    | ok y =>
      have hy := h x y hx
      simp only [forEachEl, hx, hy]
      rw [ih]

theorem translateText_idem {Dom : Type} (env : Browser Dom) (t : Table) (lang : Option String)
    (x y : TextEl Dom) (h : translateText env t lang x = .ok y) :
    translateText env t lang y = .ok y := by
  unfold translateText at h ⊢
  cases ht : translation env t lang x.key with
  | error e => simp [ht] at h
  | ok r =>
    cases r with
    | none =>
      simp only [ht, Except.ok.injEq] at h
      subst h
      simp [ht]
    | some v =>
      simp only [ht, Except.ok.injEq] at h
      subst h
      simp [ht]

theorem translateInput_idem {Dom : Type} (env : Browser Dom) (t : Table)
    (lang : Option String) (x y : InputEl) (h : translateInput env t lang x = .ok y) :
    translateInput env t lang y = .ok y := by
  unfold translateInput at h ⊢
  cases ht : translation env t lang x.key with
  | error e => simp [ht] at h
  | ok r =>
    cases r with
    | none =>
      simp only [ht, Except.ok.injEq] at h
      subst h
      simp [ht]
    | some v =>
      simp only [ht, Except.ok.injEq] at h
      subst h
      simp [ht]

theorem translation_own_lang {Dom : Type} (env : Browser Dom) (t : Table) (l : String)
    (d : Dict) (hd : ownProp t l = some d) (k : String) :
    ∃ r, translation env t (some l) k = .ok r := by
  unfold translation
  simp only [jsString, hd]
  cases ownProp d k with
  | none => exact ⟨_, rfl⟩
  | some v => exact ⟨_, rfl⟩

theorem translateText_own_lang {Dom : Type} (env : Browser Dom) (t : Table) (l : String)
    (d : Dict) (hd : ownProp t l = some d) (el : TextEl Dom) :
    ∃ y, translateText env t (some l) el = .ok y := by
  obtain ⟨r, hr⟩ := translation_own_lang env t l d hd el.key
  unfold translateText
  rw [hr]
  cases r with
  | none => exact ⟨_, rfl⟩
  | some v => exact ⟨_, rfl⟩

theorem translateInput_own_lang {Dom : Type} (env : Browser Dom) (t : Table) (l : String)
    (d : Dict) (hd : ownProp t l = some d) (el : InputEl) :
    ∃ y, translateInput env t (some l) el = .ok y := by
  obtain ⟨r, hr⟩ := translation_own_lang env t l d hd el.key
  unfold translateInput
  rw [hr]
  cases r with
  | none => exact ⟨_, rfl⟩
  | some v => exact ⟨_, rfl⟩

theorem translation_of_value {Dom : Type} (env : Browser Dom) (t : Table) (l : String)
    (d : Dict) (k v : String)
    (hd : ownProp t l = some d) (hv : ownProp d k = some v) (hne : v ≠ "") :
    translation env t (some l) k = .ok (some v) := by
  simp [translation, jsString, hd, hv, hne]

theorem setLanguage_own_lang_no_throw {Dom : Type} (env : Browser Dom) (p : LangPage Dom)
    (L : String) (d : Dict) (hL : ownProp p.translations L = some d) :
    (forEachEl (translateText env p.translations (some L)) p.textEls).2 = none ∧
    (setLanguage env (some L) p).error = none := by
  have h1 : (forEachEl (translateText env p.translations (some L)) p.textEls).2 = none :=
    forEachEl_no_throw _ _ (fun el _ => translateText_own_lang env _ L d hL el)
  have h2 : (forEachEl (translateInput env p.translations (some L)) p.inputEls).2 = none :=
    forEachEl_no_throw _ _ (fun el _ => translateInput_own_lang env _ L d hL el)
  refine ⟨h1, ?_⟩
  simp only [setLanguage, h1]
  exact h2

theorem setLanguage_inputEls_of_no_throw {Dom : Type} (env : Browser Dom) (p : LangPage Dom)
    (lang : Option String)
    (h : (forEachEl (translateText env p.translations lang) p.textEls).2 = none) :
    (setLanguage env lang p).page.inputEls
      = (forEachEl (translateInput env p.translations lang) p.inputEls).1 := by
  simp only [setLanguage, h]

/-- C3, as stated, fails: on the sample page `en` is a key of the table, yet after
`setLanguage("en")` it is not the case that every `data-i18n` element has
the content of the table entry for its key (the element keyed `subtitle`
keeps `Bienvenidos` although the entry is the empty string, and the element
keyed `footer` keeps `Contacto` although there is no entry). -/
theorem setLanguage_not_all_match_table :
    (ownProp samplePage.translations "en").isSome = true ∧
    ¬ (∀ el ∈ (setLanguage sampleBrowser (some "en") samplePage).page.textEls,
        ((ownProp samplePage.translations "en").bind (fun d => ownProp d el.key)).map
          (sampleBrowser.parseHTML el.tag) = some el.children) := by
  refine ⟨by decide, fun h => ?_⟩
  have h1 := h ⟨"p", "subtitle", ⟨"p", "Bienvenidos"⟩⟩ (by decide)
  revert h1
  decide

/-- C3, amended: for every table `T` and every language code `L` that is a key of
`T`, after `setLanguage(L)` every `data-i18n` element whose key has a
non-empty string in `T[L]` has the children the `innerHTML` setter builds
from that string, every `data-i18n-placeholder` element whose key has a
non-empty string in `T[L]` has that string as placeholder, the persisted
preference is `L`, and no error was raised. -/
theorem setLanguage_applies_table {Dom : Type} (env : Browser Dom) (p : LangPage Dom)
    (L : String) (d : Dict) (hL : ownProp p.translations L = some d) :
    (∀ (i : Nat) (el : TextEl Dom) (v : String), p.textEls[i]? = some el →
        ownProp d el.key = some v → v ≠ "" →
        (setLanguage env (some L) p).page.textEls[i]?
          = some { tag := el.tag, key := el.key, children := env.parseHTML el.tag v }) ∧
    (∀ (i : Nat) (el : InputEl) (v : String), p.inputEls[i]? = some el →
        ownProp d el.key = some v → v ≠ "" →
        (setLanguage env (some L) p).page.inputEls[i]?
          = some { key := el.key, placeholder := v }) ∧
    (setLanguage env (some L) p).page.preferredLanguage = some L ∧
    (setLanguage env (some L) p).error = none := by
  obtain ⟨hno, herr⟩ := setLanguage_own_lang_no_throw env p L d hL
  refine ⟨?_, ?_, rfl, herr⟩
  · intro i el v hi hv hne
    have ht := translation_of_value env _ L d el.key v hL hv hne
    exact forEachEl_getElem?_ok _ _
      (fun el _ => translateText_own_lang env _ L d hL el) i el _ hi
      (by simp [translateText, ht])
  · intro i el v hi hv hne
    have ht := translation_of_value env _ L d el.key v hL hv hne
    rw [setLanguage_inputEls_of_no_throw env p (some L) hno]
    exact forEachEl_getElem?_ok _ _
      (fun el _ => translateInput_own_lang env _ L d hL el) i el _ hi
      (by simp [translateInput, ht])

/-- Witness for C3 on the sample page with `L = "en"`. -/
theorem setLanguage_applies_table_witness :
    ownProp samplePage.translations "en"
      = some [("title", "Hello"), ("subtitle", ""), ("name", "Name"), ("email", "Email")] ∧
    (setLanguage sampleBrowser (some "en") samplePage).page.textEls[0]?
      = some ⟨"h1", "title", ⟨"h1", "Hello"⟩⟩ ∧
    (setLanguage sampleBrowser (some "en") samplePage).page.inputEls[0]?
      = some ⟨"email", "Email"⟩ ∧
    (setLanguage sampleBrowser (some "en") samplePage).page.preferredLanguage = some "en" ∧
    (setLanguage sampleBrowser (some "en") samplePage).error = none :=
  have h := setLanguage_applies_table sampleBrowser samplePage "en"
    [("title", "Hello"), ("subtitle", ""), ("name", "Name"), ("email", "Email")] (by decide)
  ⟨by decide,
   h.1 0 ⟨"h1", "title", ⟨"h1", "Hola"⟩⟩ "Hello" (by decide) (by decide) (by decide),
   h.2.1 0 ⟨"email", "Correo"⟩ "Email" (by decide) (by decide) (by decide),
   h.2.2.1, h.2.2.2⟩

/-- C8, as stated, fails: on the sample page `constructor` is not a key of the
table, yet `setLanguage("constructor")` does not leave every tagged element
as it was: the lookup finds the inherited function `Object`, and the element
keyed `name` receives its `name`, the string `Object`. -/
theorem setLanguage_inherited_overwrites :
    ownProp samplePage.translations "constructor" = none ∧
    ¬ (∀ (i : Nat) (el : TextEl Fragment), samplePage.textEls[i]? = some el →
        (setLanguage sampleBrowser (some "constructor") samplePage).page.textEls[i]?
          = some el) ∧
    (setLanguage sampleBrowser (some "constructor") samplePage).page.textEls[3]?
      = some ⟨"label", "name", ⟨"label", "Object"⟩⟩ := by
  refine ⟨by decide, fun h => ?_, by decide⟩
  have h1 := h 3 ⟨"label", "name", ⟨"label", "Nombre"⟩⟩ (by decide)
  revert h1
  decide

/-- C8, amended: `setLanguage` fails open. A tagged element for which the lookup
`translations[L][key]` finds nothing truthy keeps its content or placeholder:
that is the case when `L` is a key of `T`, the element's key is absent from
`T[L]` and the prototype chain has no truthy property of that name, and when
`L` is not a key of `T` and the inherited lookup for `L` and the key is
`undefined` or falsy. No error is raised when `L` is a key of `T`; and when
`L` is neither a key of `T` nor the name of an inherited property, every
tagged element is left as it was and no error is raised. -/
theorem setLanguage_fails_open {Dom : Type} (env : Browser Dom) (p : LangPage Dom)
    (L : String) :
    (∀ (i : Nat) (el : TextEl Dom), p.textEls[i]? = some el →
        ((∃ d, ownProp p.translations L = some d ∧ ownProp d el.key = none ∧
            env.inheritedKey el.key = none) ∨
          (ownProp p.translations L = none ∧ env.inheritedLang L el.key = .ok none)) →
        (setLanguage env (some L) p).page.textEls[i]? = some el) ∧
    (∀ (i : Nat) (el : InputEl), p.inputEls[i]? = some el →
        ((∃ d, ownProp p.translations L = some d ∧ ownProp d el.key = none ∧
            env.inheritedKey el.key = none) ∨
          (ownProp p.translations L = none ∧ env.inheritedLang L el.key = .ok none)) →
        (setLanguage env (some L) p).page.inputEls[i]? = some el) ∧
    ((∃ d, ownProp p.translations L = some d) → (setLanguage env (some L) p).error = none) ∧
    (ownProp p.translations L = none → (∀ key, env.inheritedLang L key = .ok none) →
        (setLanguage env (some L) p).page.textEls = p.textEls ∧
        (setLanguage env (some L) p).page.inputEls = p.inputEls ∧
        (setLanguage env (some L) p).error = none) := by
  have hnone : ∀ key : String,
      ((∃ d, ownProp p.translations L = some d ∧ ownProp d key = none ∧
          env.inheritedKey key = none) ∨
        (ownProp p.translations L = none ∧ env.inheritedLang L key = .ok none)) →
      translation env p.translations (some L) key = .ok none := by
    intro key h
    rcases h with ⟨d, hd, hk, hi⟩ | ⟨hl, hi⟩
    · simp [translation, jsString, hd, hk, hi]
    · simp [translation, jsString, hl, hi]
  refine ⟨?_, ?_, ?_, ?_⟩
  · intro i el hi h
    exact forEachEl_getElem?_fixed _ _ i el hi
      (Or.inl (by simp [translateText, hnone el.key h]))
  · intro i el hi h
    simp only [setLanguage]
    split
    · exact hi
    · exact forEachEl_getElem?_fixed _ _ i el hi
        (Or.inl (by simp [translateInput, hnone el.key h]))
  · rintro ⟨d, hd⟩
    exact (setLanguage_own_lang_no_throw env p L d hd).2
  · intro hl hall
    have h1 : forEachEl (translateText env p.translations (some L)) p.textEls
        = (p.textEls, none) :=
      forEachEl_fixed_all _ _
        (fun el _ => by simp [translateText, hnone el.key (Or.inr ⟨hl, hall el.key⟩)])
    have h2 : forEachEl (translateInput env p.translations (some L)) p.inputEls
        = (p.inputEls, none) :=
      forEachEl_fixed_all _ _
        (fun el _ => by simp [translateInput, hnone el.key (Or.inr ⟨hl, hall el.key⟩)])
    simp [setLanguage, h1, h2]

/-- Witness for C8 on the sample page: `footer` is not a key of the English
dictionary and `phone` is in neither dictionary; `fr` is neither a key of the
table nor an inherited name. -/
theorem setLanguage_fails_open_witness :
    (setLanguage sampleBrowser (some "en") samplePage).page.textEls[2]?
      = some ⟨"a", "footer", ⟨"a", "Contacto"⟩⟩ ∧
    (setLanguage sampleBrowser (some "en") samplePage).page.inputEls[1]?
      = some ⟨"phone", "Teléfono"⟩ ∧
    (setLanguage sampleBrowser (some "en") samplePage).error = none ∧
    (setLanguage sampleBrowser (some "fr") samplePage).page.textEls = samplePage.textEls ∧
    (setLanguage sampleBrowser (some "fr") samplePage).page.inputEls = samplePage.inputEls ∧
    (setLanguage sampleBrowser (some "fr") samplePage).error = none :=
  ⟨(setLanguage_fails_open sampleBrowser samplePage "en").1 2
      ⟨"a", "footer", ⟨"a", "Contacto"⟩⟩
      (by decide)
      (Or.inl ⟨[("title", "Hello"), ("subtitle", ""), ("name", "Name"), ("email", "Email")],
        by decide, by decide, rfl⟩),
   (setLanguage_fails_open sampleBrowser samplePage "en").2.1 1 ⟨"phone", "Teléfono"⟩
      (by decide)
      (Or.inl ⟨[("title", "Hello"), ("subtitle", ""), ("name", "Name"), ("email", "Email")],
        by decide, by decide, rfl⟩),
   (setLanguage_fails_open sampleBrowser samplePage "en").2.2.1
      ⟨[("title", "Hello"), ("subtitle", ""), ("name", "Name"), ("email", "Email")],
        by decide⟩,
   ((setLanguage_fails_open sampleBrowser samplePage "fr").2.2.2 (by decide)
      (fun key => by simp [sampleBrowser])).1,
   ((setLanguage_fails_open sampleBrowser samplePage "fr").2.2.2 (by decide)
      (fun key => by simp [sampleBrowser])).2.1,
   ((setLanguage_fails_open sampleBrowser samplePage "fr").2.2.2 (by decide)
      (fun key => by simp [sampleBrowser])).2.2⟩

/-- C10: `setLanguage` is idempotent. For every browser, every page state (table,
document language, persisted preference, button flags, contents and
placeholders of the tagged elements) and every argument, calling it twice in
a row gives the same page state, and the same error if any, as calling it
once. -/
theorem setLanguage_idempotent {Dom : Type} (env : Browser Dom) (lang : Option String)
    (p : LangPage Dom) :
    setLanguage env lang (setLanguage env lang p).page = setLanguage env lang p := by
  have ht := forEachEl_idem (translateText env p.translations lang) p.textEls
    (translateText_idem env p.translations lang)
  have hi := forEachEl_idem (translateInput env p.translations lang) p.inputEls
    (translateInput_idem env p.translations lang)
  have hb : (p.langBtns.map (toggleActive lang)).map (toggleActive lang)
      = p.langBtns.map (toggleActive lang) := by
    simp [List.map_map, Function.comp_def, toggleActive]
  cases he : (forEachEl (translateText env p.translations lang) p.textEls).2 with
  | some e =>
    simp only [setLanguage, he, ht, hb]
  | none =>
    simp only [setLanguage, he, ht, hb, hi]

/-- A fetch that rejects, or whose body is not parsable JSON, leaves the page as it
was: this is the part of the failure path the `catch` block covers. -/
theorem loadTranslations_caught {Dom : Type} (env : Browser Dom) (p : LangPage Dom)
    (ok : Bool) :
    loadTranslations env .rejected p = p ∧ loadTranslations env (.resolved ok none) p = p :=
  ⟨rfl, rfl⟩

/-- C6, evaluated at a non-OK response whose body parses: the table is replaced by
the body, `setLanguage("es")` runs, the preference is written and the content
of the element keyed `title` is replaced. -/
theorem loadTranslations_ignores_status :
    loadTranslations sampleBrowser (.resolved false (some maintenanceTable)) freshPage =
      { translations := maintenanceTable
        docLang := "es"
        preferredLanguage := some "es"
        langBtns := [⟨some "es", true⟩, ⟨some "en", false⟩, ⟨some "fr", false⟩]
        textEls := [⟨"h1", "title", ⟨"h1", "Servicio no disponible"⟩⟩,
                    ⟨"p", "subtitle", ⟨"p", "Bienvenidos"⟩⟩,
                    ⟨"a", "footer", ⟨"a", "Contacto"⟩⟩,
                    ⟨"label", "name", ⟨"label", "Nombre"⟩⟩]
        inputEls := [⟨"email", "Correo"⟩, ⟨"phone", "Teléfono"⟩] } ∧
    loadTranslations sampleBrowser (.resolved false (some maintenanceTable)) freshPage
      ≠ freshPage := by
  decide

theorem setLanguage_page_fields {Dom : Type} (env : Browser Dom) (lang : Option String)
    (p : LangPage Dom) :
    (setLanguage env lang p).page.langBtns.map (fun b => jsString b.dataLang)
      = p.langBtns.map (fun b => jsString b.dataLang) ∧
    (setLanguage env lang p).page.preferredLanguage = some (jsString lang) := by
  simp [setLanguage, List.map_map, Function.comp_def, toggleActive]

theorem savedLang_mem {Dom : Type} (p0 p : LangPage Dom)
    (h : p.preferredLanguage = p0.preferredLanguage ∨
      ∃ c ∈ candidateLangs p0, p.preferredLanguage = some c) :
    savedLang p ∈ candidateLangs p0 := by
  have hes : "es" ∈ candidateLangs p0 := by simp [candidateLangs]
  rcases h with h | ⟨c, hc, h⟩
  · unfold savedLang
    rw [h]
    cases hp : p0.preferredLanguage with
    | none => simpa using hes
    | some s =>
      by_cases hs : s = ""
      · simpa [hs] using hes
      · simp [hs, candidateLangs, hp]
  · unfold savedLang
    rw [h]
    by_cases hs : c = ""
    · simpa [hs] using hes
    · simpa [hs] using hc

/-- Invariant of a session started on `p0`: the buttons keep their `data-lang`
values, the stored preference is the initial one or a candidate, and it is a
candidate once `setLanguage` has run. -/
theorem session_invariant {Dom : Type} (env : Browser Dom) (p0 : LangPage Dom)
    (evs : List LangEvent) :
    ((Session.start p0).run env evs).page.langBtns.map (fun b => jsString b.dataLang)
      = p0.langBtns.map (fun b => jsString b.dataLang) ∧
    (((Session.start p0).run env evs).page.preferredLanguage = p0.preferredLanguage ∨
      ∃ c ∈ candidateLangs p0,
        ((Session.start p0).run env evs).page.preferredLanguage = some c) ∧
    (((Session.start p0).run env evs).langSet = true →
      ∃ c ∈ candidateLangs p0,
        ((Session.start p0).run env evs).page.preferredLanguage = some c) := by
  induction evs using List.reverseRecOn with
  | nil => simp [Session.run, Session.start]
  | append_singleton evs ev ih =>
    obtain ⟨hb, hp, hs⟩ := ih
    have hrun : (Session.start p0).run env (evs ++ [ev])
        = ((Session.start p0).run env evs).step env ev := by
      simp [Session.run, List.foldl_append]
    rw [hrun]
    generalize (Session.start p0).run env evs = s at hb hp hs
    cases ev with
    | loaded r =>
      cases r with
      | rejected =>
        refine ⟨hb, hp, ?_⟩
        simpa [Session.step, loadTranslations] using hs
      | resolved ok body =>
        cases body with
        | none =>
          refine ⟨hb, hp, ?_⟩
          simpa [Session.step, loadTranslations] using hs
        | some t =>
          have hm : savedLang s.page ∈ candidateLangs p0 := savedLang_mem p0 s.page hp
          have hf := setLanguage_page_fields env (some (savedLang s.page))
            { s.page with translations := t }
          have hpref : (s.step env (.loaded (.resolved ok (some t)))).page.preferredLanguage
              = some (savedLang s.page) := by
            simpa [Session.step, loadTranslations, jsString, savedLang] using hf.2
          refine ⟨?_, Or.inr ⟨_, hm, hpref⟩, fun _ => ⟨_, hm, hpref⟩⟩
          simp only [Session.step, loadTranslations]
          rw [hf.1]
          exact hb
    | click i =>
      cases hi : s.page.langBtns[i]? with
      | none =>
        refine ⟨?_, ?_, ?_⟩
        · simpa [Session.step, langBtnClick, hi] using hb
        · simpa [Session.step, langBtnClick, hi] using hp
        · simpa [Session.step, langBtnClick, hi] using hs
      | some btn =>
        have hm : jsString btn.dataLang ∈ candidateLangs p0 := by
          have h1 : jsString btn.dataLang
              ∈ s.page.langBtns.map (fun b => jsString b.dataLang) :=
            List.mem_map.mpr ⟨btn, List.getElem?_mem hi, rfl⟩
          rw [hb] at h1
          simp only [candidateLangs, List.mem_append, List.mem_cons]
          exact Or.inr (Or.inr h1)
        have hf := setLanguage_page_fields env btn.dataLang s.page
        have hpref : (s.step env (.click i)).page.preferredLanguage
            = some (jsString btn.dataLang) := by
          simpa [Session.step, langBtnClick, hi] using hf.2
        refine ⟨?_, Or.inr ⟨_, hm, hpref⟩, fun _ => ⟨_, hm, hpref⟩⟩
        simp only [Session.step, langBtnClick, hi]
        rw [hf.1]
        exact hb

/-- C9, as stated, fails: on the sample page, once the table (keys `es` and `en`)
has loaded and the button with `data-lang="fr"` is clicked, the preference
has been set and its value `fr` is not a key of the loaded table. -/
theorem persisted_language_not_always_key :
    ¬ (((Session.start samplePage).run sampleBrowser
          [.loaded (.resolved true (some sampleTable)), .click 2]).langSet = true →
        ∃ l, ((Session.start samplePage).run sampleBrowser
          [.loaded (.resolved true (some sampleTable)), .click 2]).page.preferredLanguage
            = some l ∧
          (ownProp ((Session.start samplePage).run sampleBrowser
            [.loaded (.resolved true (some sampleTable)), .click 2]).page.translations
              l).isSome = true) := by
  intro h
  obtain ⟨l, h1, h2⟩ := h (by decide)
  have h3 : ((Session.start samplePage).run sampleBrowser
      [.loaded (.resolved true (some sampleTable)), .click 2]).page.preferredLanguage
        = some "fr" := by decide
  rw [h3] at h1
  cases h1
  revert h2
  decide

/-- C9, amended: in every state reachable through `loadTranslations` and
language-button clicks, the persisted value, once it has been set, is the
preference stored before the session (if non-empty), the default `es`, or
the `data-lang` value of one of the buttons; it is a key of the current
table whenever each of those codes is. -/
theorem persisted_language_is_candidate {Dom : Type} (env : Browser Dom) (p0 : LangPage Dom)
    (evs : List LangEvent)
    (hset : ((Session.start p0).run env evs).langSet = true) :
    ∃ c ∈ candidateLangs p0,
      ((Session.start p0).run env evs).page.preferredLanguage = some c ∧
      ((∀ c' ∈ candidateLangs p0,
          (ownProp ((Session.start p0).run env evs).page.translations c').isSome = true) →
        (ownProp ((Session.start p0).run env evs).page.translations c).isSome = true) := by
  obtain ⟨c, hc, hp⟩ := (session_invariant env p0 evs).2.2 hset
  exact ⟨c, hc, hp, fun h => h c hc⟩

/-- Witness for C9: the sample session that loads the table and clicks the
English button. -/
theorem persisted_language_is_candidate_witness :
    ((Session.start samplePage).run sampleBrowser
      [.loaded (.resolved true (some sampleTable)), .click 1]).langSet = true ∧
    ∃ c ∈ candidateLangs samplePage,
      ((Session.start samplePage).run sampleBrowser
        [.loaded (.resolved true (some sampleTable)), .click 1]).page.preferredLanguage
          = some c ∧
      ((∀ c' ∈ candidateLangs samplePage,
          (ownProp ((Session.start samplePage).run sampleBrowser
            [.loaded (.resolved true (some sampleTable)), .click 1]).page.translations
              c').isSome = true) →
        (ownProp ((Session.start samplePage).run sampleBrowser
          [.loaded (.resolved true (some sampleTable)), .click 1]).page.translations
            c).isSome = true) :=
  ⟨by decide,
   persisted_language_is_candidate sampleBrowser samplePage
     [.loaded (.resolved true (some sampleTable)), .click 1] (by decide)⟩

/-! ## Theorems: FAQ accordion -/

theorem closeItem_countP (items : List FaqItem) :
    (items.map closeItem).countP (fun i => i.active) = 0 := by
  induction items with
  | nil => rfl
  | cons x xs ih => simp [List.countP_cons, closeItem, ih]

theorem getElem?_map_closeItem (items : List FaqItem) (k : Nat) (x : FaqItem)
    (h : (items.map closeItem)[k]? = some x) :
    x = { active := false, ariaExpanded := some "false" } := by
  simp only [List.getElem?_map, Option.map_eq_some'] at h
  obtain ⟨y, _, hy⟩ := h
  simpa [closeItem] using hy.symm

theorem countP_set_closed (items : List FaqItem) (j : Nat) (x : FaqItem) :
    ((items.map closeItem).set j x).countP (fun i => i.active) ≤ 1 := by
  induction items generalizing j with
  | nil => simp
  | cons y ys ih =>
    cases j with
    | zero =>
      simp only [List.map_cons, List.set_cons_zero, List.countP_cons, closeItem_countP]
      split <;> simp
    | succ j =>
      simp only [List.map_cons, List.set_cons_succ, List.countP_cons]
      have := ih j
      simp only [closeItem]
      simpa using this

/-- C4: for every accordion state and every item `j`, after a click on the
question of `j`: if `j` was closed, `j` is open and every other item is
closed; if `j` was open, no item is open; at most one item is open; and the
`aria-expanded` attribute of every item is `"true"` when it is open and
`"false"` when it is closed. -/
theorem faqClick_single_open (items : List FaqItem) (j : Nat) (item : FaqItem)
    (hj : items[j]? = some item) :
    (item.active = false →
      (faqClick j items)[j]? = some { active := true, ariaExpanded := some "true" } ∧
      ∀ (k : Nat) (x : FaqItem), k ≠ j → (faqClick j items)[k]? = some x →
        x.active = false) ∧
    (item.active = true →
      ∀ (k : Nat) (x : FaqItem), (faqClick j items)[k]? = some x → x.active = false) ∧
    openCount (faqClick j items) ≤ 1 ∧
    (faqClick j items).length = items.length ∧
    (∀ (k : Nat) (x : FaqItem), (faqClick j items)[k]? = some x →
      x.ariaExpanded = some (if x.active then "true" else "false")) := by
  have hlt : j < items.length := by
    rcases List.getElem?_eq_some_iff.mp hj with ⟨h, _⟩
    exact h
  refine ⟨?_, ?_, ?_, ?_, ?_⟩
  · intro hclosed
    constructor
    · simp [faqClick, hj, hclosed, List.getElem?_set, hlt]
    · intro k x hk hx
      simp only [faqClick, hj, hclosed, Bool.not_false, if_true] at hx
      rw [List.getElem?_set_ne (Ne.symm hk)] at hx
      rw [getElem?_map_closeItem items k x hx]
  · intro hopen k x hx
    simp only [faqClick, hj, hopen, Bool.not_true] at hx
    rw [getElem?_map_closeItem items k x (by simpa using hx)]
  · unfold openCount faqClick
    simp only [hj]
    split
    · exact countP_set_closed items j _
    · rw [closeItem_countP]
      exact Nat.zero_le 1
  · unfold faqClick
    simp only [hj]
    split <;> simp
  · intro k x hx
    unfold faqClick at hx
    simp only [hj] at hx
    split at hx
    · by_cases hk : j = k
      · subst hk
        simp [List.getElem?_set, hlt] at hx
        subst hx
        rfl
      · rw [List.getElem?_set_ne hk] at hx
        rw [getElem?_map_closeItem items k x hx]
        rfl
    · rw [getElem?_map_closeItem items k x hx]
      rfl

/-- Witness for C4: on the sample accordion (items 0 and 2 open), a click on the
closed item 1 and a click on the open item 0. -/
theorem faqClick_single_open_witness :
    sampleFaq[1]? = some ⟨false, none⟩ ∧
    (faqClick 1 sampleFaq)[1]? = some ⟨true, some "true"⟩ ∧
    openCount (faqClick 1 sampleFaq) ≤ 1 ∧
    sampleFaq[0]? = some ⟨true, some "true"⟩ ∧
    (∀ (k : Nat) (x : FaqItem), (faqClick 0 sampleFaq)[k]? = some x → x.active = false) :=
  ⟨by decide,
   ((faqClick_single_open sampleFaq 1 ⟨false, none⟩ (by decide)).1 rfl).1,
   (faqClick_single_open sampleFaq 1 ⟨false, none⟩ (by decide)).2.2.1,
   by decide,
   (faqClick_single_open sampleFaq 0 ⟨true, some "true"⟩ (by decide)).2.1 rfl⟩

/-! ## Theorems: navbar scroll effect -/

theorem onScroll_inv (y : Int) (s : ScrollState) (h : ScrollInv s) :
    ScrollInv (onScroll y s) := by
  obtain ⟨hn, h | h⟩ := h
  · exact ⟨by simpa [onScroll, h.1] using hn, Or.inr (by simp [onScroll, h.1, h.2])⟩
  · exact ⟨by simpa [onScroll, h.1] using hn, Or.inr (by simp [onScroll, h.1, h.2])⟩

theorem onFrame_inv (s : ScrollState) (h : ScrollInv s) : ScrollInv (onFrame s) := by
  obtain ⟨hn, h | h⟩ := h
  · exact ⟨by simpa [onFrame, h.2] using hn, Or.inl (by simp [onFrame, h.1, h.2])⟩
  · obtain ⟨b, hb⟩ := Option.isSome_iff_exists.mp hn
    exact ⟨by simp [onFrame, h.2, frameCallback, hb],
      Or.inl (by simp [onFrame, h.2, frameCallback, hb])⟩

theorem run_inv (s : ScrollState) (evs : List ScrollEvent) (h : ScrollInv s) :
    ScrollInv (s.run evs) := by
  induction evs generalizing s with
  | nil => exact h
  | cons ev evs ih =>
    have hstep : ScrollInv (s.step ev) := by
      cases ev with
      | scroll y => exact onScroll_inv y s h
      | frame => exact onFrame_inv s h
    exact ih (s.step ev) hstep

theorem onScroll_recomputed (y : Int) (s : ScrollState) :
    (onScroll y s).recomputed = s.recomputed ∧ (onScroll y s).scrollY = y := by
  unfold onScroll
  cases s.ticking <;> simp

theorem burst_recomputed (ys : List Int) (s : ScrollState) :
    (s.run (scrollBurst ys)).recomputed = s.recomputed := by
  induction ys generalizing s with
  | nil => rfl
  | cons y ys ih =>
    have h := ih (onScroll y s)
    rw [(onScroll_recomputed y s).1] at h
    simpa [scrollBurst, ScrollState.run, ScrollState.step] using h

theorem onScroll_pending (y : Int) (s : ScrollState) (h : ScrollInv s) :
    (onScroll y s).pending = 1 := by
  obtain ⟨_, h | h⟩ := h <;> simp [onScroll, h.1, h.2]

theorem burst_pending_aux (ys : List Int) (t : ScrollState) (h : ScrollInv t)
    (hp : t.pending = 1) : (t.run (scrollBurst ys)).pending = 1 := by
  induction ys generalizing t with
  | nil => exact hp
  | cons z zs ih =>
    have h3 : (t.run (scrollBurst (z :: zs))) = (onScroll z t).run (scrollBurst zs) := by
      simp [scrollBurst, ScrollState.run, ScrollState.step]
    rw [h3]
    exact ih (onScroll z t) (onScroll_inv z t h) (onScroll_pending z t h)

theorem burst_pending (ys : List Int) (s : ScrollState) (hne : ys ≠ []) (h : ScrollInv s) :
    (s.run (scrollBurst ys)).pending = 1 := by
  cases ys with
  | nil => exact absurd rfl hne
  | cons y ys =>
    have h2 : (s.run (scrollBurst (y :: ys))) = (onScroll y s).run (scrollBurst ys) := by
      simp [scrollBurst, ScrollState.run, ScrollState.step]
    rw [h2]
    exact burst_pending_aux ys (onScroll y s) (onScroll_inv y s h) (onScroll_pending y s h)

/-- C7: in the machine whose steps are a scroll event and an animation frame,
started with `ticking = false` and nothing pending on a page with a navbar,
every reachable state has at most one frame callback pending, and `ticking`
is true exactly when one is pending. After any burst of scroll events the
next frame recomputes the `scrolled` class at most once (exactly once when
the burst is non-empty, and the burst itself recomputes nothing), and a
recomputation sets the class exactly when `scrollY > 50`. -/
theorem scroll_throttle (y0 : Int) (b : Bool) (evs : List ScrollEvent) (ys : List Int) :
    ((ScrollState.start y0 (some b)).run evs).pending ≤ 1 ∧
    (((ScrollState.start y0 (some b)).run evs).ticking = true ↔
      ((ScrollState.start y0 (some b)).run evs).pending = 1) ∧
    (((ScrollState.start y0 (some b)).run evs).run (scrollBurst ys)).recomputed
      = ((ScrollState.start y0 (some b)).run evs).recomputed ∧
    (onFrame (((ScrollState.start y0 (some b)).run evs).run (scrollBurst ys))).recomputed
      ≤ ((ScrollState.start y0 (some b)).run evs).recomputed + 1 ∧
    ((onFrame (((ScrollState.start y0 (some b)).run evs).run (scrollBurst ys))).recomputed
        = ((ScrollState.start y0 (some b)).run evs).recomputed + 1 →
      (onFrame (((ScrollState.start y0 (some b)).run evs).run (scrollBurst ys))).navbar
        = some (decide ((((ScrollState.start y0 (some b)).run evs).run
            (scrollBurst ys)).scrollY > 50))) ∧
    (ys ≠ [] →
      (onFrame (((ScrollState.start y0 (some b)).run evs).run (scrollBurst ys))).recomputed
        = ((ScrollState.start y0 (some b)).run evs).recomputed + 1) := by
  have hstart : ScrollInv (ScrollState.start y0 (some b)) :=
    ⟨rfl, Or.inl ⟨rfl, rfl⟩⟩
  have hs := run_inv _ evs hstart
  generalize (ScrollState.start y0 (some b)).run evs = s at hs
  have ht := run_inv s (scrollBurst ys) hs
  have hrec := burst_recomputed ys s
  have hpend := burst_pending ys s
  generalize s.run (scrollBurst ys) = t at ht hrec hpend
  obtain ⟨hn, hcase⟩ := ht
  obtain ⟨nb, hnb⟩ := Option.isSome_iff_exists.mp hn
  refine ⟨?_, ?_, hrec, ?_, ?_, ?_⟩
  · obtain ⟨_, h | h⟩ := hs <;> simp [h.2]
  · obtain ⟨_, h | h⟩ := hs <;> simp [h.1, h.2]
  · rcases hcase with h | h
    · simp [onFrame, h.2, hrec]
    · simp [onFrame, h.2, frameCallback, hnb, hrec]
  · rcases hcase with h | h
    · simp [onFrame, h.2, hrec]
    · intro _
      simp [onFrame, h.2, frameCallback, hnb]
  · intro hne
    have hp := hpend hne hs
    simp [onFrame, hp, frameCallback, hnb, hrec]

/-! ## Theorems: form submission -/

/-- C1: for each of the two forms and every outcome of the request (an OK
response, a non-OK response with a parsable body, a non-OK response with an
unparsable body, a rejected fetch), whatever the page looks like when the
request settles, at the end of the promise chain the submit button is
enabled and its label is the label it had when the submit event fired. -/
theorem submit_restores_button {Dom : Type} (env : Browser Dom) (f : Form) (r : Fetched Json)
    (p mid : FormPage Dom) :
    (settle env f (submitStart f p).1 r mid).submitBtn
      = { disabled := false, textContent := p.submitBtn.textContent } ∧
    (submit env f r p).submitBtn
      = { disabled := false, textContent := p.submitBtn.textContent } ∧
    (submitStart f p).2.submitBtn.disabled = true :=
  ⟨rfl, rfl, rfl⟩

theorem settle_toasts_parsed {Dom : Type} (env : Browser Dom) (f : Form) (orig : String)
    (j : Json) (e m : Option Json) (p : FormPage Dom)
    (he : j.get "error" = .ok e) (hm : j.get "message" = .ok m) :
    (settle env f orig (.resolved false (some j)) p).toasts
      = p.toasts ++ [env.parseHTML "div" (toastMarkup (render (jsOr e
          (jsOr m (some (.str "Error"))))))] := by
  simp [settle, onResponse, he, hm, onFinally, showToast, bind, Except.bind, pure,
    Except.pure]

/-- C5, as stated, fails twice. The body with fields `error` (the empty string) and
`message` has an `error` field, yet the toast is not built from that
field: it is built from the `message` field. And the body `null` has neither
field, yet the toast is not the generic `Error`: reading `json.error` throws
and the toast is the one of the `catch` block. -/
theorem toast_not_always_error_field :
    ¬ (∀ e : String, emptyErrorBody.get "error" = .ok (some (.str e)) →
        (submit sampleBrowser .contact (.resolved false (some emptyErrorBody))
          sampleForm).toasts
          = sampleForm.toasts ++ [sampleBrowser.parseHTML "div" (toastMarkup e)]) ∧
    (submit sampleBrowser .contact (.resolved false (some emptyErrorBody)) sampleForm).toasts
      = [⟨"div", toastMarkup "Bad request"⟩] ∧
    (submit sampleBrowser .contact (.resolved false (some .null)) sampleForm).toasts
      = [⟨"div", toastMarkup "¡Algo salió mal!"⟩] ∧
    (submit sampleBrowser .contact (.resolved false (some .null)) sampleForm).toasts
      ≠ [⟨"div", toastMarkup "Error"⟩] := by
  have h2 : (submit sampleBrowser .contact (.resolved false (some emptyErrorBody))
      sampleForm).toasts = [⟨"div", toastMarkup "Bad request"⟩] := by
    have h := settle_toasts_parsed sampleBrowser .contact (submitStart .contact sampleForm).1
      emptyErrorBody (some (.str "")) (some (.str "Bad request"))
      (submitStart .contact sampleForm).2 rfl rfl
    have hs : submit sampleBrowser .contact (.resolved false (some emptyErrorBody)) sampleForm
        = settle sampleBrowser .contact (submitStart .contact sampleForm).1
            (.resolved false (some emptyErrorBody)) (submitStart .contact sampleForm).2 := rfl
    rw [hs, h]
    simp [jsOr, truthy, render, Json.render, submitStart, sampleForm, sampleBrowser]
  have h3 : (submit sampleBrowser .contact (.resolved false (some .null)) sampleForm).toasts
      = [⟨"div", toastMarkup "¡Algo salió mal!"⟩] := by
    simp [submit, submitStart, settle, onResponse, Json.get, bind, Except.bind, onCatch,
      onFinally, showToast, sampleForm, sampleBrowser]
  refine ⟨fun h => ?_, h2, h3, ?_⟩
  · have h1 := h "" rfl
    rw [h2] at h1
    revert h1
    decide
  · rw [h3]
    decide

/-- C5, amended: for a submission of either form answered with a non-OK status
and a body that parses to JSON other than `null`, the toast is built from the
toast template with this message interpolated: the `error` field when it is
a non-empty string; otherwise, when `error` is absent or the empty string,
the `message` field when that is a non-empty string; and the generic `Error`
when the body has neither field. In particular the body with `error` equal
to `Invalid email` yields the toast with message `Invalid email`. -/
theorem toast_from_error_body {Dom : Type} (env : Browser Dom) (f : Form) (orig : String)
    (j : Json) (p : FormPage Dom) :
    (∀ e : String, j.get "error" = .ok (some (.str e)) → e ≠ "" →
      (settle env f orig (.resolved false (some j)) p).toasts
        = p.toasts ++ [env.parseHTML "div" (toastMarkup e)]) ∧
    (∀ m : String, (j.get "error" = .ok none ∨ j.get "error" = .ok (some (.str ""))) →
      j.get "message" = .ok (some (.str m)) → m ≠ "" →
      (settle env f orig (.resolved false (some j)) p).toasts
        = p.toasts ++ [env.parseHTML "div" (toastMarkup m)]) ∧
    (j.get "error" = .ok none → j.get "message" = .ok none →
      (settle env f orig (.resolved false (some j)) p).toasts
        = p.toasts ++ [env.parseHTML "div" (toastMarkup "Error")]) ∧
    (settle env f orig (.resolved false (some invalidEmailBody)) p).toasts
      = p.toasts ++ [env.parseHTML "div" (toastMarkup "Invalid email")] := by
  have hmsg : ∀ e : Option Json, j.get "error" = .ok e → ∃ m, j.get "message" = .ok m := by
    intro e he
    cases j <;> simp [Json.get] at he ⊢
  refine ⟨?_, ?_, ?_, ?_⟩
  · intro e he hne
    obtain ⟨m, hm⟩ := hmsg _ he
    rw [settle_toasts_parsed env f orig j _ m p he hm]
    simp [jsOr, truthy, hne, render, Json.render]
  · intro m he hm hne
    rcases he with he | he <;>
      rw [settle_toasts_parsed env f orig j _ _ p he hm] <;>
      simp [jsOr, truthy, hne, render, Json.render]
  · intro he hm
    rw [settle_toasts_parsed env f orig j _ _ p he hm]
    simp [jsOr, truthy, render, Json.render]
  · rw [settle_toasts_parsed env f orig invalidEmailBody (some (.str "Invalid email")) none p
      rfl rfl]
    simp [jsOr, truthy, render, Json.render]

/-- Witness for C5 on the newsletter form: a body whose `error` field is a
non-empty string, one with only a `message` field, and the empty object. -/
theorem toast_from_error_body_witness :
    (settle sampleBrowser .newsletter "Suscribirse"
        (.resolved false (some (.obj [("error", .str "Too many requests")])))
        sampleForm).toasts = sampleForm.toasts ++ [⟨"div", toastMarkup "Too many requests"⟩] ∧
    (settle sampleBrowser .newsletter "Suscribirse"
        (.resolved false (some (.obj [("message", .str "Not found")])))
        sampleForm).toasts = sampleForm.toasts ++ [⟨"div", toastMarkup "Not found"⟩] ∧
    (settle sampleBrowser .newsletter "Suscribirse" (.resolved false (some (.obj [])))
        sampleForm).toasts = sampleForm.toasts ++ [⟨"div", toastMarkup "Error"⟩] :=
  ⟨(toast_from_error_body sampleBrowser .newsletter "Suscribirse"
      (.obj [("error", .str "Too many requests")]) sampleForm).1 "Too many requests" rfl
      (by decide),
   (toast_from_error_body sampleBrowser .newsletter "Suscribirse"
      (.obj [("message", .str "Not found")]) sampleForm).2.1 "Not found" (Or.inl rfl) rfl
      (by decide),
   (toast_from_error_body sampleBrowser .newsletter "Suscribirse" (.obj []) sampleForm).2.2.1
      rfl rfl⟩

/-! ## Theorems: animation registrations -/

/-- C2, evaluated with the animation library absent on a page with one team card:
no registration is made, and initialisation ends with a `ReferenceError`. -/
theorem initAnimations_throws_without_gsap :
    initAnimations noLibrary teamPage = { regs := [], error := some .referenceError } := by
  decide

theorem forEachIndex_throwing (n : Nat) (body : Nat → InitResult) (e : JsError)
    (h : ∀ i, body i = { regs := [], error := some e }) :
    forEachIndex n body = if n = 0 then InitResult.skip else { regs := [], error := some e } := by
  cases n with
  | zero => rfl
  | succ n =>
    simp [forEachIndex, List.range_succ_eq_map, h, InitResult.seq]

/-- With the library absent, initialisation makes no registration, and it ends
without an error exactly when the page has neither a team card nor an FAQ
shape. -/
theorem initAnimations_without_gsap (g : Globals) (p : AnimPage) (hg : g.gsap = false) :
    (initAnimations g p).regs = [] ∧
    ((initAnimations g p).error = none ↔ p.teamCards = 0 ∧ p.faqShapes = 0) := by
  have hbody : ∀ r1 r2 : Reg, (gsapCall g r1).seq (gsapCall g r2)
      = { regs := [], error := some .referenceError } := by
    intro r1 r2
    simp [gsapCall, hg, InitResult.seq]
  have h1 := forEachIndex_throwing p.teamCards
    (fun i => (gsapCall g (Reg.teamCard i)).seq (gsapCall g (Reg.teamDetails i)))
    .referenceError (fun i => hbody _ _)
  have h2 := forEachIndex_throwing p.faqShapes
    (fun i => (gsapCall g (Reg.shapeParallax i)).seq (gsapCall g (Reg.shapeFloat i)))
    .referenceError (fun i => hbody _ _)
  unfold initAnimations teamCardLoop faqShapeLoop
  rw [h1, h2]
  by_cases ht : p.teamCards = 0 <;> by_cases hf : p.faqShapes = 0 <;>
    simp [hg, ht, hf, InitResult.seq, InitResult.skip]

end Catarsis

